import Mathlib

/-!
Shallow embedding of the trading-bot core (`app/bot.py`, `app/capital_client.py`)
and verification of the specified properties.

Numeric values (bid, ask, midpoints, sizes) are modelled as rationals; Python
dictionary fields that may be missing are modelled as `Option`.
-/

set_option autoImplicit false

namespace TradingBot

/-- One raw candle record of the price payload.  A Python candle dict may carry a
flat `bid`/`ask` field and/or a nested `close` sub-record with its own
`bid`/`ask`; each of the four slots may be absent (`none`). -/
structure Candle where
  bid : Option ℚ
  ask : Option ℚ
  closeBid : Option ℚ
  closeAsk : Option ℚ
deriving DecidableEq, Repr

/-- The raw price-history payload: `price_payload.get("prices", [])` — a missing
`prices` key behaves as the empty candle list, so the payload is just the list. -/
structure PricePayload where
  prices : List Candle
deriving DecidableEq, Repr

/-- The errors the embedded core can raise.  `noPriceData` is the `ValueError`
of `_extract_mid_prices` (the spec's `NoPriceDataError`); `authenticationError`
is the `RuntimeError` of `create_session` (the spec's `AuthenticationError`). -/
inductive CapitalError where
  | noPriceData
  | authenticationError
deriving DecidableEq, Repr

/-- `TradeDecision` from `app/bot.py`: direction is one of the strings
"BUY", "SELL", "NONE". -/
structure TradeDecision where
  direction : String
  size : ℚ
  reason : String
deriving DecidableEq, Repr

/-- `CapitalSession` from `app/capital_client.py`: the token pair taken from the
login response headers. -/
structure CapitalSession where
  cst : String
  securityToken : String
deriving DecidableEq, Repr

deriving instance DecidableEq for Except

/-- Python's `flat or nested` on a numeric field: a number is falsy exactly when
it is `0`, and a missing field (`None`) is falsy, so the nested value is used
whenever the flat one is absent or zero.  Embeds
`candle.get("bid") or candle.get("close", \x7b\x7d).get("bid")`. -/
def orNum (flat nested : Option ℚ) : Option ℚ :=
  match flat with
  | none => nested
  | some v => if v = 0 then nested else some v

/-- The per-candle body of the extraction loop: resolve bid and ask by the
falsy fallback, and when both are non-`None` produce the midpoint `(bid+ask)/2`. -/
def midOfCandle (c : Candle) : Option ℚ :=
  match orNum c.bid c.closeBid, orNum c.ask c.closeAsk with
  | some b, some a => some ((b + a) / 2)
  | _, _ => none

/-- The `for candle in ...: ... prices.append(...)` loop of `_extract_mid_prices`:
append the midpoint of each candle whose bid and ask both resolve, preserving
order. -/
def extractLoop : List Candle → List ℚ
  | [] => []
  | c :: rest =>
    match midOfCandle c with
    | some m => m :: extractLoop rest
    | none => extractLoop rest

/-- `_extract_mid_prices`: run the loop, then `if not prices: raise ValueError`
— the error is raised exactly when the collected series is empty. -/
def extract_mid_prices (payload : PricePayload) : Except CapitalError (List ℚ) :=
  let prices := extractLoop payload.prices
  if prices = [] then .error .noPriceData else .ok prices

/-- `statistics.mean`, on rationals: sum divided by length. -/
def mean (xs : List ℚ) : ℚ := xs.sum / (xs.length : ℚ)

/-- Python's `xs[-n:]`: the last `n` elements, or the whole list when it is
shorter than `n`. -/
def lastN (n : Nat) (xs : List ℚ) : List ℚ := xs.drop (xs.length - n)

/-- The decision rule of `decide_trade` as a function of the two averages:
strictly greater → BUY, strictly smaller → SELL, equal → NONE with size 0. -/
def decisionOfAvgs (short_avg long_avg trade_size : ℚ) : TradeDecision :=
  if short_avg > long_avg then ⟨"BUY", trade_size, "short_avg > long_avg"⟩
  else if short_avg < long_avg then ⟨"SELL", trade_size, "short_avg < long_avg"⟩
  else ⟨"NONE", 0, "no crossover"⟩

/-- The signal computation of `decide_trade` on an already-extracted midpoint
series: `short_window = mids[-5:]`, `long_window = mids[-20:]`, compare the
means. -/
def decideCore (mids : List ℚ) (trade_size : ℚ) : TradeDecision :=
  let short_window := lastN 5 mids
  let long_window := lastN 20 mids
  let short_avg := mean short_window
  let long_avg := mean long_window
  decisionOfAvgs short_avg long_avg trade_size

/-- `decide_trade`: extract the midpoints (propagating `noPriceData`), then run
the crossover rule. -/
def decide_trade (payload : PricePayload) (trade_size : ℚ) :
    Except CapitalError TradeDecision :=
  match extract_mid_prices payload with
  | .error e => .error e
  | .ok mids => .ok (decideCore mids trade_size)

/-- The execution outcome of `execute_trade`, one constructor per `status`
string of the returned dict: `skipped`, `dry_run` (the spec's `simulated`
outcome) and `placed` (carrying the venue's raw order response, of abstract
type `α`). -/
inductive ExecOutcome (α : Type) where
  | skipped (reason : String)
  | dryRun (direction : String) (size : ℚ) (reason : String)
  | placed (direction : String) (result : α)
deriving DecidableEq, Repr

/-- `execute_trade`, with the two collaborator calls abstracted: `fetched` is
the payload returned by `client.fetch_prices`, and `place_order` is the
client's order-placement call, returning a venue response of type `α`.  The
second component of the result counts how many times `place_order` was invoked
(the call-count double of the spec's Scenario D): the source calls it exactly
once on the live non-NONE path and never otherwise. -/
def execute_trade {α : Type} (fetched : PricePayload) (trade_size : ℚ)
    (dry_run : Bool) (place_order : String → ℚ → α) :
    Except CapitalError (ExecOutcome α × Nat) :=
  match decide_trade fetched trade_size with
  | .error e => .error e
  | .ok decision =>
    if decision.direction = "NONE" then
      .ok (.skipped decision.reason, 0)
    else if dry_run then
      .ok (.dryRun decision.direction decision.size decision.reason, 0)
    else
      .ok (.placed decision.direction (place_order decision.direction decision.size), 1)

/-- `CapitalClient.create_session`, after a transport-successful response:
`cst` and `security_token` are the values of the `CST` and `X-SECURITY-TOKEN`
response headers (`none` when the header is absent).  Python's
`if not cst or not security_token` raises when either value is `None` or the
empty string. -/
def create_session (cst security_token : Option String) :
    Except CapitalError CapitalSession :=
  match cst, security_token with
  | some c, some t =>
    if c = "" ∨ t = "" then .error .authenticationError
    else .ok ⟨c, t⟩
  | _, _ => .error .authenticationError

/-! ## Helper lemmas -/

/-- A Python slice `xs[-n:]` of a list no longer than `n` is the whole list. -/
theorem lastN_of_le {n : Nat} {xs : List ℚ} (h : xs.length ≤ n) : lastN n xs = xs := by
  simp [lastN, Nat.sub_eq_zero_of_le h]

/-- The decision of `decide_trade` is the branch rule applied to the two window
means. -/
theorem decideCore_eq (mids : List ℚ) (ts : ℚ) :
    decideCore mids ts = decisionOfAvgs (mean (lastN 5 mids)) (mean (lastN 20 mids)) ts := rfl

/-- A side of a candle resolves to `None` exactly when the flat field is absent
or zero and the nested field is absent. -/
theorem orNum_eq_none_iff (flat nested : Option ℚ) :
    orNum flat nested = none ↔ ((flat = none ∨ flat = some 0) ∧ nested = none) := by
  cases flat with
  | none => simp [orNum]
  | some v =>
    by_cases hv : v = 0 <;> simp [orNum, hv]

/-- A candle contributes no midpoint exactly when one of its sides resolves to
`None`. -/
theorem midOfCandle_eq_none_iff (c : Candle) :
    midOfCandle c = none ↔
      (orNum c.bid c.closeBid = none ∨ orNum c.ask c.closeAsk = none) := by
  cases hb : orNum c.bid c.closeBid <;> cases ha : orNum c.ask c.closeAsk <;>
    simp [midOfCandle, hb, ha]

/-- On a list where every candle has a resolvable bid and ask, the extraction
loop keeps every candle, in order, each replaced by its midpoint. -/
theorem extractLoop_map_of_resolvable : ∀ (cs : List Candle),
    (∀ c ∈ cs, (midOfCandle c).isSome) →
    (extractLoop cs).map some = cs.map midOfCandle
  | [], _ => rfl
  | c :: rest, h => by
    obtain ⟨m, hm⟩ := Option.isSome_iff_exists.mp (h c (List.mem_cons_self c rest))
    simp only [extractLoop, hm, List.map_cons]
    exact congrArg (some m :: ·)
      (extractLoop_map_of_resolvable rest (fun x hx => h x (List.mem_cons_of_mem c hx)))

/-- The extraction loop yields the empty series exactly when no candle has both
sides resolvable. -/
theorem extractLoop_eq_nil_iff : ∀ (cs : List Candle),
    (extractLoop cs = [] ↔ ∀ c ∈ cs, midOfCandle c = none)
  | [] => by simp [extractLoop]
  | c :: rest => by
    cases hm : midOfCandle c with
    | none => simp [extractLoop, hm, extractLoop_eq_nil_iff rest]
    | some m => simp [extractLoop, hm]

/-! ## Claim C2: the crossover decision rule -/

/-- Claim C2: on every non-empty midpoint series and trade size, `decide_trade`'s
rule returns BUY with size = trade_size and reason "short_avg > long_avg" when
the mean of the last 5 points exceeds the mean of the last 20; SELL with
size = trade_size and reason "short_avg < long_avg" when it is strictly less;
and NONE with size 0 and reason "no crossover" when the means are exactly equal
(no tolerance band). -/
theorem decide_rule_cases (mids : List ℚ) (ts : ℚ) (h : mids ≠ []) :
    (mean (lastN 5 mids) > mean (lastN 20 mids) →
      decideCore mids ts = ⟨"BUY", ts, "short_avg > long_avg"⟩) ∧
    (mean (lastN 5 mids) < mean (lastN 20 mids) →
      decideCore mids ts = ⟨"SELL", ts, "short_avg < long_avg"⟩) ∧
    (mean (lastN 5 mids) = mean (lastN 20 mids) →
      decideCore mids ts = ⟨"NONE", 0, "no crossover"⟩) := by
  refine ⟨fun hc => ?_, fun hc => ?_, fun hc => ?_⟩
  · rw [decideCore_eq]
    simp [decisionOfAvgs, hc]
  · rw [decideCore_eq]
    simp [decisionOfAvgs, hc, lt_asymm hc]
  · rw [decideCore_eq]
    simp [decisionOfAvgs, hc, lt_irrefl]

/-- Witness for C2: on the one-point series the two means are equal and the
decision is NONE. -/
theorem decide_rule_cases_on_singleton :
    mean (lastN 5 [(1:ℚ)]) = mean (lastN 20 [(1:ℚ)]) ∧
    decideCore [(1:ℚ)] 2 = ⟨"NONE", 0, "no crossover"⟩ :=
  ⟨rfl, (decide_rule_cases [(1:ℚ)] 2 (by simp)).2.2 rfl⟩

/-! ## Claim C9: series of length at most 5 -/

/-- Claim C9: on every midpoint series of length at least 1 and at most 5, the
short and long windows coincide with the whole series, so the decision is NONE
with size 0 and reason "no crossover". -/
theorem decide_short_windows_coincide (mids : List ℚ) (ts : ℚ)
    (h1 : mids ≠ []) (h2 : mids.length ≤ 5) :
    decideCore mids ts = ⟨"NONE", 0, "no crossover"⟩ := by
  rw [decideCore_eq, lastN_of_le h2, lastN_of_le (le_trans h2 (by omega))]
  simp [decisionOfAvgs, lt_irrefl]

/-- Witness for C9: a concrete two-point series yields NONE. -/
theorem decide_short_windows_coincide_on_pair :
    decideCore [(3:ℚ), 4] 7 = ⟨"NONE", 0, "no crossover"⟩ :=
  decide_short_windows_coincide [(3:ℚ), 4] 7 (by simp) (by simp)

/-! ## Claim C6: series shorter than the long window -/

/-- The behaviour claim C6 ascribes to short series, modelled from the claim's
words: both the short and the long average are computed over all available
points. -/
def decideClaimBothAllPoints (mids : List ℚ) (trade_size : ℚ) : TradeDecision :=
  decisionOfAvgs (mean mids) (mean mids) trade_size

/-- Counterexample to C6 as stated: on the 10-point series
`[0,0,0,0,0,10,10,10,10,10]` (length between 1 and 19) the code's short average
is the mean of the last five points (10), not the mean of all points (5), so
the code returns BUY while computing both averages over all points would return
NONE. -/
theorem decide_short_series_claim_cex :
    ([(0:ℚ),0,0,0,0,10,10,10,10,10].length < 20 ∧
      [(0:ℚ),0,0,0,0,10,10,10,10,10] ≠ []) ∧
    decideCore [(0:ℚ),0,0,0,0,10,10,10,10,10] 1 = ⟨"BUY", 1, "short_avg > long_avg"⟩ ∧
    decideClaimBothAllPoints [(0:ℚ),0,0,0,0,10,10,10,10,10] 1 = ⟨"NONE", 0, "no crossover"⟩ ∧
    decideCore [(0:ℚ),0,0,0,0,10,10,10,10,10] 1 ≠
      decideClaimBothAllPoints [(0:ℚ),0,0,0,0,10,10,10,10,10] 1 := by
  have hbuy : decideCore [(0:ℚ),0,0,0,0,10,10,10,10,10] 1 =
      ⟨"BUY", 1, "short_avg > long_avg"⟩ := by
    rw [decideCore_eq]
    norm_num [decisionOfAvgs, mean, lastN]
  have hnone : decideClaimBothAllPoints [(0:ℚ),0,0,0,0,10,10,10,10,10] 1 =
      ⟨"NONE", 0, "no crossover"⟩ := by
    simp [decideClaimBothAllPoints, decisionOfAvgs]
  refine ⟨⟨by norm_num, by simp⟩, hbuy, hnone, ?_⟩
  rw [hbuy, hnone]
  simp

/-- Claim C6 amended: on every series with length at least 1 and shorter than
the long window (20), the decision is returned without error with the long
average degraded to the mean of all available points, while the short average
remains the mean of the last 5 points (all points only when the length is at
most 5). -/
theorem decide_short_series_degrades (mids : List ℚ) (ts : ℚ)
    (h1 : mids ≠ []) (h2 : mids.length < 20) :
    decideCore mids ts = decisionOfAvgs (mean (lastN 5 mids)) (mean mids) ts := by
  rw [decideCore_eq, lastN_of_le (le_of_lt h2)]

/-- Witness for the amended C6: a concrete two-point series. -/
theorem decide_short_series_degrades_on_pair :
    decideCore [(1:ℚ), 2] 1 = decisionOfAvgs (mean (lastN 5 [(1:ℚ), 2])) (mean [(1:ℚ), 2]) 1 :=
  decide_short_series_degrades [(1:ℚ), 2] 1 (by simp) (by simp)

/-! ## Claim C8: non-negative decision size -/

/-- Counterexample to C8 as stated: with a negative trade size and a series
producing a BUY signal, the produced decision has negative size. -/
theorem decide_negative_size_cex :
    (decideCore [(0:ℚ),0,0,0,0,5,5,5,5,5] (-1)).size = -1 ∧
    (decideCore [(0:ℚ),0,0,0,0,5,5,5,5,5] (-1)).size < 0 := by
  have hbuy : decideCore [(0:ℚ),0,0,0,0,5,5,5,5,5] (-1) =
      ⟨"BUY", -1, "short_avg > long_avg"⟩ := by
    rw [decideCore_eq]
    norm_num [decisionOfAvgs, mean, lastN]
  rw [hbuy]
  norm_num

/-- Claim C8 amended: every decision produced by the signal engine has
non-negative size, for every input series, provided the trade_size argument is
itself non-negative (BUY/SELL copy trade_size; NONE uses 0). -/
theorem decide_size_nonneg (mids : List ℚ) (ts : ℚ) (h : 0 ≤ ts) :
    0 ≤ (decideCore mids ts).size := by
  rw [decideCore_eq]
  unfold decisionOfAvgs
  split_ifs <;> simp [h]

/-- Witness for the amended C8: a concrete series and trade size. -/
theorem decide_size_nonneg_on_singleton :
    (0:ℚ) ≤ 1 ∧ 0 ≤ (decideCore [(1:ℚ)] 1).size :=
  ⟨by norm_num, decide_size_nonneg [(1:ℚ)] 1 (by norm_num)⟩

/-! ## Claim C3: extraction keeps all resolvable candles in order -/

/-- Claim C3: on every candle list in which every candle has a resolvable bid
and ask (directly or through the nested close record), the extraction loop
returns a series of exactly the same length, in the same order, each element
being the midpoint (bid+ask)/2 of the corresponding candle. -/
theorem extract_resolvable_all_kept (cs : List Candle)
    (h : ∀ c ∈ cs, (midOfCandle c).isSome) :
    (extractLoop cs).length = cs.length ∧
    (extractLoop cs).map some = cs.map midOfCandle := by
  have hmap := extractLoop_map_of_resolvable cs h
  refine ⟨?_, hmap⟩
  have hlen := congrArg List.length hmap
  simpa using hlen

/-- Witness for C3: a concrete two-candle list, the second candle resolving its
bid through the nested close record. -/
theorem extract_resolvable_all_kept_on_pair :
    (extractLoop [⟨some 1, some 3, none, none⟩, ⟨none, some 4, some 2, none⟩]).length = 2 ∧
    (extractLoop [⟨some 1, some 3, none, none⟩, ⟨none, some 4, some 2, none⟩]).map some =
      [(⟨some 1, some 3, none, none⟩ : Candle), ⟨none, some 4, some 2, none⟩].map midOfCandle :=
  extract_resolvable_all_kept
    [⟨some 1, some 3, none, none⟩, ⟨none, some 4, some 2, none⟩]
    (by intro c hc; fin_cases hc <;> norm_num [midOfCandle, orNum])

/-! ## Claim C4: the extraction error -/

/-- Claim C4: `_extract_mid_prices` raises its error exactly when the midpoint
series comes out empty — that is, when no candle has both a resolvable bid and
ask (in particular when there are no candles) — the only error it can produce
is `noPriceData`, and when the series is non-empty it is returned unchanged
(unresolvable candles having been silently dropped). -/
theorem extract_error_iff_empty (payload : PricePayload) :
    (∀ e, extract_mid_prices payload = .error e ↔
      (e = .noPriceData ∧ ∀ c ∈ payload.prices, midOfCandle c = none)) ∧
    (extractLoop payload.prices ≠ [] →
      extract_mid_prices payload = .ok (extractLoop payload.prices)) := by
  constructor
  · intro e
    by_cases hnil : extractLoop payload.prices = []
    · have hfact := (extractLoop_eq_nil_iff payload.prices).mp hnil
      constructor
      · intro he
        have he' : CapitalError.noPriceData = e := by
          simpa [extract_mid_prices, hnil] using he
        exact ⟨he'.symm, hfact⟩
      · rintro ⟨rfl, -⟩
        simp [extract_mid_prices, hnil]
    · have hall : ¬ ∀ c ∈ payload.prices, midOfCandle c = none :=
        fun hc => hnil ((extractLoop_eq_nil_iff payload.prices).mpr hc)
      simp [extract_mid_prices, hnil, hall]
  · intro hne
    simp [extract_mid_prices, hne]

/-- Witness for C4: the empty payload produces the `noPriceData` error. -/
theorem extract_error_on_empty_payload :
    extract_mid_prices ⟨[]⟩ = .error .noPriceData :=
  ((extract_error_iff_empty ⟨[]⟩).1 .noPriceData).mpr ⟨rfl, by simp⟩

/-! ## Claim C7: Scenario A arithmetic -/

/-- Scenario A payload of the spec: 20 candles with bid = ask = 1 followed by
5 candles with bid = ask = 10. -/
def scenarioA : PricePayload :=
  ⟨List.replicate 20 ⟨some 1, some 1, none, none⟩ ++
    List.replicate 5 ⟨some 10, some 10, none, none⟩⟩

/-- Claim C7: on Scenario A the short average is 10, the long average over the
last 20 midpoints (fifteen 1s and five 10s) is 13/4 = 3.25 and strictly
smaller, and the pipeline decides BUY. -/
theorem scenarioA_buys :
    mean (lastN 5 (extractLoop scenarioA.prices)) = 10 ∧
    mean (lastN 20 (extractLoop scenarioA.prices)) = 13/4 ∧
    mean (lastN 20 (extractLoop scenarioA.prices)) <
      mean (lastN 5 (extractLoop scenarioA.prices)) ∧
    decide_trade scenarioA 1 = .ok ⟨"BUY", 1, "short_avg > long_avg"⟩ := by
  have hext : extractLoop scenarioA.prices =
      List.replicate 20 1 ++ List.replicate 5 10 := by
    norm_num [scenarioA, extractLoop, midOfCandle, orNum, List.replicate]
  have hshort : mean (lastN 5 (extractLoop scenarioA.prices)) = 10 := by
    rw [hext]; norm_num [mean, lastN, List.replicate]
  have hlong : mean (lastN 20 (extractLoop scenarioA.prices)) = 13/4 := by
    rw [hext]; norm_num [mean, lastN, List.replicate]
  have hne : extractLoop scenarioA.prices ≠ [] := by
    rw [hext]; simp [List.replicate]
  have hok : extract_mid_prices scenarioA = .ok (extractLoop scenarioA.prices) := by
    simp [extract_mid_prices, hne]
  refine ⟨hshort, hlong, by rw [hshort, hlong]; norm_num, ?_⟩
  simp only [decide_trade, hok]
  rw [decideCore_eq, hshort, hlong]
  norm_num [decisionOfAvgs]

/-! ## Claim C1: order placement gating in execute_trade -/

/-- Claim C1: whenever `execute_trade` computes a decision `d`, the outcome is
`skipped` when the direction is NONE, the dry-run (`simulated`) outcome when
the direction is non-NONE and dry_run holds, and `placed` (with the venue
response of the single `place_order` call) otherwise; `place_order` is invoked
(call count 1) exactly when the direction is non-NONE and dry_run is false,
and never invoked (call count 0) in the other two cases. -/
theorem execute_trade_gating {α : Type} (payload : PricePayload) (ts : ℚ)
    (dry : Bool) (po : String → ℚ → α) (d : TradeDecision)
    (h : decide_trade payload ts = .ok d) :
    (d.direction = "NONE" →
      execute_trade payload ts dry po = .ok (.skipped d.reason, 0)) ∧
    (d.direction ≠ "NONE" → dry = true →
      execute_trade payload ts dry po = .ok (.dryRun d.direction d.size d.reason, 0)) ∧
    (d.direction ≠ "NONE" → dry = false →
      execute_trade payload ts dry po =
        .ok (.placed d.direction (po d.direction d.size), 1)) ∧
    (∀ out n, execute_trade payload ts dry po = .ok (out, n) →
      (n = 1 ↔ (d.direction ≠ "NONE" ∧ dry = false))) := by
  have key : execute_trade payload ts dry po =
      if d.direction = "NONE" then .ok (.skipped d.reason, 0)
      else if dry then .ok (.dryRun d.direction d.size d.reason, 0)
      else .ok (.placed d.direction (po d.direction d.size), 1) := by
    simp only [execute_trade, h]
  refine ⟨fun hd => ?_, fun hd hdry => ?_, fun hd hdry => ?_, fun out n hout => ?_⟩
  · simp [key, hd]
  · subst hdry; simp [key, hd]
  · subst hdry; simp [key, hd]
  · rw [key] at hout
    by_cases hd : d.direction = "NONE"
    · rw [if_pos hd] at hout
      obtain ⟨-, rfl⟩ := Prod.mk.injEq .. ▸ Except.ok.inj hout
      simp [hd]
    · rw [if_neg hd] at hout
      cases hdry : dry with
      | true =>
        rw [hdry, if_pos rfl] at hout
        obtain ⟨-, rfl⟩ := Prod.mk.injEq .. ▸ Except.ok.inj hout
        simp
      | false =>
        rw [hdry, if_neg (by simp)] at hout
        obtain ⟨-, rfl⟩ := Prod.mk.injEq .. ▸ Except.ok.inj hout
        simp [hd]

/-- A payload whose series is five midpoints of 2 followed by one of 8: the
short average (last five points) is 16/5, the overall average 3, so the
decision is BUY. -/
def payloadB : PricePayload :=
  ⟨List.replicate 5 ⟨some 2, some 2, none, none⟩ ++ [⟨some 8, some 8, none, none⟩]⟩

/-- Witness for C1 (the spec's Scenario D): on a BUY decision with dry_run set,
the outcome is the dry-run one and place_order is never invoked. -/
theorem execute_trade_gating_scenarioD :
    execute_trade payloadB 1 true (fun _ _ => ()) =
      .ok (.dryRun "BUY" 1 "short_avg > long_avg", 0) := by
  have hext : extractLoop payloadB.prices = List.replicate 5 2 ++ [8] := by
    norm_num [payloadB, extractLoop, midOfCandle, orNum, List.replicate]
  have h : decide_trade payloadB 1 = .ok ⟨"BUY", 1, "short_avg > long_avg"⟩ := by
    have hne : extractLoop payloadB.prices ≠ [] := by
      rw [hext]; simp [List.replicate]
    have hok : extract_mid_prices payloadB = .ok (extractLoop payloadB.prices) := by
      simp [extract_mid_prices, hne]
    simp only [decide_trade, hok]
    rw [decideCore_eq, hext]
    norm_num [decisionOfAvgs, mean, lastN, List.replicate]
  exact (execute_trade_gating payloadB 1 true (fun _ _ => ())
    ⟨"BUY", 1, "short_avg > long_avg"⟩ h).2.1 (by simp) rfl

/-! ## Claim C5: session creation requires both token headers -/

/-- Counterexample to C5 as stated: a transport-successful response carrying
both headers, but with an empty CST value, also fails — the code checks Python
truthiness, not mere presence — so "when both are present it returns a
VenueSession carrying exactly those two token values" is false. -/
theorem create_session_empty_header_cex :
    create_session (some "") (some "tok") = .error .authenticationError ∧
    create_session (some "") (some "tok") ≠ .ok ⟨"", "tok"⟩ := by
  constructor <;> simp [create_session]

/-- Claim C5 amended: `create_session` on a transport-successful response fails
with the authentication error and produces no session exactly when either token
header is absent or present with an empty value; when both are present with
non-empty values it returns the session carrying exactly those two values. -/
theorem create_session_requires_nonempty_tokens (cst security_token : Option String) :
    (create_session cst security_token = .error .authenticationError ↔
      (cst = none ∨ cst = some "" ∨ security_token = none ∨ security_token = some "")) ∧
    (∀ c t, cst = some c → security_token = some t → c ≠ "" → t ≠ "" →
      create_session cst security_token = .ok ⟨c, t⟩) := by
  constructor
  · cases cst with
    | none => simp [create_session]
    | some c =>
      cases security_token with
      | none => simp [create_session]
      | some t =>
        by_cases hc : c = "" <;> by_cases ht : t = "" <;>
          simp [create_session, hc, ht]
  · rintro c t rfl rfl hc ht
    simp [create_session, hc, ht]

/-- Witness for the amended C5: two non-empty headers produce the session. -/
theorem create_session_on_good_headers :
    create_session (some "abc") (some "xyz") = .ok ⟨"abc", "xyz"⟩ :=
  (create_session_requires_nonempty_tokens (some "abc") (some "xyz")).2
    "abc" "xyz" rfl rfl (by decide) (by decide)

/-! ## Claim C10: falsy fallback on flat bid/ask fields -/

/-- Counterexample to C10 as stated: a candle whose flat bid is 0 and whose
nested close bid is also 0 has no truthy source for its bid side, yet it is not
dropped — the nested 0 is not `None`, so the candle is kept with midpoint
(0+5)/2. -/
theorem nested_zero_kept_cex :
    orNum (some 0) (some 0) = some 0 ∧
    extractLoop [⟨some 0, some 5, some 0, none⟩] = [5/2] ∧
    extractLoop [⟨some 0, some 5, some 0, none⟩] ≠ [] := by
  refine ⟨by norm_num [orNum], ?_, ?_⟩ <;>
    norm_num [extractLoop, midOfCandle, orNum]

/-- Claim C10 amended: a flat bid or ask of 0 (or an absent one) is treated as
missing and the nested close value is used instead, whatever it is — a nested 0
counts as present and becomes the resolved value; a side resolves to `None`
exactly when the flat field is absent or 0 and the nested field is absent, and
the candle is dropped from the series exactly when one of its sides resolves to
`None`. -/
theorem falsy_fallback_resolution (c : Candle) :
    (c.bid = some 0 → orNum c.bid c.closeBid = c.closeBid) ∧
    (c.bid = none → orNum c.bid c.closeBid = c.closeBid) ∧
    (∀ v, c.bid = some v → v ≠ 0 → orNum c.bid c.closeBid = some v) ∧
    (orNum c.bid c.closeBid = none ↔
      ((c.bid = none ∨ c.bid = some 0) ∧ c.closeBid = none)) ∧
    (orNum c.ask c.closeAsk = none ↔
      ((c.ask = none ∨ c.ask = some 0) ∧ c.closeAsk = none)) ∧
    (midOfCandle c = none → ∀ rest, extractLoop (c :: rest) = extractLoop rest) ∧
    (midOfCandle c = none ↔
      (orNum c.bid c.closeBid = none ∨ orNum c.ask c.closeAsk = none)) := by
  refine ⟨fun hb => ?_, fun hb => ?_, fun v hb hv => ?_,
    orNum_eq_none_iff c.bid c.closeBid, orNum_eq_none_iff c.ask c.closeAsk,
    fun hm rest => ?_, midOfCandle_eq_none_iff c⟩
  · rw [hb]; simp [orNum]
  · rw [hb]; simp [orNum]
  · rw [hb]; simp [orNum, hv]
  · simp [extractLoop, hm]

/-- Witness for the amended C10: a flat bid of 0 falls back to the nested value
3. -/
theorem falsy_fallback_resolution_on_zero_bid :
    orNum (some 0) (some 3) = some 3 :=
  (falsy_fallback_resolution ⟨some 0, some 0, some 3, some 4⟩).1 rfl

end TradingBot
